import Mathlib

set_option maxRecDepth 4096

/-!
Shallow embedding of the app_container_spec validation engine.

Source layout: `src/types.rs` (primitive validators and an older
`Errors(Vec<String>)` error type), `src/util.rs` (the tree-shaped
`Errors` enum and the `Parseable`/`StringWrapper` machinery),
`src/image_manifest.rs` and `src/image_manifest/app/*.rs` (composite
entity validators; the repository contains duplicate evolutionary
snapshots of several of them).

Modelling conventions:
  - `rustc_serialize::json::Json` is the inductive `Json` below; its
    `U64`/`I64` payloads are `Nat`/`Int` (JSON input never produces a
    `U64` outside `[0, 2^64)`, and none of the validators below depend
    on the width), `F64` carries a `Float` that is never inspected.
  - Rust `BTreeMap<String, _>` is an association list kept sorted by
    key (`btreeInsert`), matching BTreeMap's sorted iteration order.
  - Rust character classes like `[a-z0-9]` are modelled over `Char`;
    the regex crate's Unicode-aware `\d` is modelled as membership in
    the `Nd` general category (`ndRanges`).
  - A Rust panic (a reachable `unwrap` on `None`/`Err`) is modelled by
    an `Option` result, `none` standing for the panic.
-/

/-- `rustc_serialize::json::Json`: the generic JSON value tree consumed by
every validator. Objects are association lists (BTreeMap iteration order;
keys unique in values produced by the JSON parser). -/
inductive Json where
  | null
  | boolean (b : Bool)
  | i64 (n : Int)
  | u64 (n : Nat)
  | f64 (x : Float)
  | str (s : String)
  | array (xs : List Json)
  | object (o : List (String × Json))

/-- `BTreeMap::get` / `json::Object::get` on the association-list model. -/
def jsonGet (o : List (String × Json)) (k : String) : Option Json :=
  (o.find? (fun kv => kv.1 = k)).map (fun kv => kv.2)

/-- Does the Rust pattern `&Json::U64(_)` match this value? -/
def Json.isU64 : Json → Bool
  | .u64 _ => true
  | _ => false

/-- `util.rs` lines 14-18: the tree-shaped error structure.
`Node` holds messages for one position, `Array` one optional slot per
array element, `Object` one entry per failing field. -/
inductive Errors where
  | node (msgs : List String)
  | array (slots : List (Option Errors))
  | object (entries : List (String × Errors))

/-- `util.rs` line 20: `ParseResult<T> = Result<T, Errors>`. -/
abbrev ParseResult (α : Type) := Except Errors α

/-- `BTreeMap::insert`: sorted-by-key insertion into the association-list
model of `BTreeMap<String, Errors>`. -/
def btreeInsert (k : String) (v : Errors) :
    List (String × Errors) → List (String × Errors)
  | [] => [(k, v)]
  | (k', v') :: rest =>
    if k < k' then (k, v) :: (k', v') :: rest
    else if k = k' then (k, v) :: rest
    else (k', v') :: btreeInsert k v rest

/-- `BTreeMap::get` on the error-map model. -/
def errLookup (m : List (String × Errors)) (k : String) : Option Errors :=
  (m.find? (fun kv => kv.1 = k)).map (fun kv => kv.2)

/-- The error an `Except` carries, if any. -/
def excErr {α : Type} : Except Errors α → Option Errors
  | .error e => some e
  | .ok _ => none

/-- Insert a field's failure (if any) into an error map, as the repeated
`errors.insert(String::from(k), err)` pattern of the composite validators. -/
def errInsert {α : Type} (k : String) (r : Except Errors α)
    (m : List (String × Errors)) : List (String × Errors) :=
  match r with
  | .error e => btreeInsert k e m
  | .ok _ => m

/-- `util.rs` lines 30-41: the blanket `Parseable` impl applied to the
`StringWrapper` impl for `String` — any JSON string is accepted verbatim,
anything else is `Node(["must be a string"])`. -/
def String.from_json : Json → ParseResult String
  | .str s => .ok s
  | _ => .error (.node ["must be a string"])

/-- The element loop shared verbatim by the two snapshots of the
event-handler `exec` validator (`src/image_manifest/app/event_handler.rs`
lines 29-42 and `src/image_manifest.rs` lines 121-134): each element is
validated with `String::from_json`; passing elements push their value on
`result` and a `None` slot on `errors`, failing ones push `Some(err)`. -/
def execLoop : List Json → List String × List (Option Errors)
  | [] => ([], [])
  | j :: rest =>
    let acc := execLoop rest
    match String.from_json j with
    | .ok cmd => (cmd :: acc.1, none :: acc.2)
    | .error e => (acc.1, some e :: acc.2)

/-- `src/image_manifest/app/event_handler.rs` lines 26-52 (the free
function `exec_from_json`): after the loop, fail iff some slot `is_some`. -/
def exec_from_json (j : Json) : ParseResult (List String) :=
  match j with
  | .array arr =>
    let acc := execLoop arr
    if acc.2.any (fun e => e.isSome) then .error (.array acc.2) else .ok acc.1
  | _ => .error (.node ["must be an array"])

/-- `src/image_manifest.rs` lines 118-144 (`EventHandler::exec_from_json`):
same loop, but the final test is `errors.is_empty()` on the slot vector
itself, which holds a slot for every element, passing or not. -/
def EventHandler.exec_from_json (j : Json) : ParseResult (List String) :=
  match j with
  | .array arr =>
    let acc := execLoop arr
    if acc.2.isEmpty then .ok acc.1 else .error (.array acc.2)
  | _ => .error (.node ["must be an array"])

mutual

/-- Modelled from the spec: `util.rs` defines no `is_empty` on `Errors`;
spec §4.1 defines the recursive emptiness check (empty `Leaf` list, empty
`Mapping`, and a `Sequence` whose every slot is empty are all "empty"). -/
def Errors.isEmptyRec : Errors → Bool
  | .node msgs => msgs.isEmpty
  | .array slots => Errors.slotsEmptyRec slots
  | .object entries => Errors.entriesEmptyRec entries

def Errors.slotsEmptyRec : List (Option Errors) → Bool
  | [] => true
  | none :: rest => Errors.slotsEmptyRec rest
  | some e :: rest => e.isEmptyRec && Errors.slotsEmptyRec rest

def Errors.entriesEmptyRec : List (String × Errors) → Bool
  | [] => true
  | (_, e) :: rest => e.isEmptyRec && Errors.entriesEmptyRec rest

end

/-- Character class `[a-z0-9]` (ASCII, as in the Rust regexes). -/
def lowerAlnum (c : Char) : Bool := decide (('a' ≤ c ∧ c ≤ 'z') ∨ ('0' ≤ c ∧ c ≤ '9'))

/-- Character class `[-._~/]` of `AC_IDENTIFIER_REGEX`. -/
def acIdentSep (c : Char) : Bool := c = '-' || c = '.' || c = '_' || c = '~' || c = '/'

/-- Deterministic matcher for regexes of shape `^G+((sep)G+)*$` (running
group seen at least one `G` character when `seen` is true): the alnum and
separator classes are disjoint, so the regex is matched exactly by this
one-pass automaton. -/
def sepRunGo (G sep : Char → Bool) (seen : Bool) : List Char → Bool
  | [] => seen
  | c :: rest =>
    if G c then sepRunGo G sep true rest
    else if sep c then seen && sepRunGo G sep false rest
    else false

/-- `types.rs` line 7, `AC_IDENTIFIER_REGEX = ^[a-z0-9]+([-._~/][a-z0-9]+)*$`. -/
def acIdentifierMatch (s : String) : Bool := sepRunGo lowerAlnum acIdentSep false s.data

/-- `types.rs` line 9, `AC_NAME_REGEX = ^[a-z0-9]+([-][a-z0-9]+)*$`. -/
def acNameMatch (s : String) : Bool := sepRunGo lowerAlnum (fun c => c = '-') false s.data

/-- `types.rs` line 32: the older error type `Errors(Vec<String>)`, modelled
directly as its payload `List String`; `combine` is list append and
`is_empty` list emptiness. `ParseResult<T>` over it is `Except (List String) T`. -/
abbrev VecParseResult (α : Type) := Except (List String) α

/-- `types.rs` line 34: `TypeResult<T> = Result<T, String>`. -/
abbrev TypeResult (α : Type) := Except String α

/-- `types.rs` line 36: `ACIdentifier(String)`. -/
structure ACIdentifier where
  val : String
deriving DecidableEq

/-- `types.rs` lines 39-42: `ACIdentifier::parse_error`. -/
def ACIdentifier.parse_error (path message : String) : String :=
  path ++ " " ++ message ++
  "\nhttps://github.com/appc/spec/blob/v0.7.4/spec/types.md#ac-identifier-type"

/-- `types.rs` lines 44-50: `ACIdentifier::from_string`. -/
def ACIdentifier.from_string (identifier path : String) : VecParseResult ACIdentifier :=
  if acIdentifierMatch identifier then .ok ⟨identifier⟩
  else .error [ACIdentifier.parse_error path "has invalid formatting."]

/-- `types.rs` lines 60-63: `ACKind`. -/
inductive ACKind where
  | imageManifest
  | podManifest
deriving DecidableEq

/-- `types.rs` lines 66-79: `ACKind::from_json`. -/
def ACKind.from_json : Json → TypeResult ACKind
  | .str kind =>
    if kind = "ImageManifest" then .ok .imageManifest
    else if kind = "PodManifest" then .ok .podManifest
    else .error "Invalid AC Kind"
  | _ => .error "Invalid AC Kind"

/-- The ASCII digits `[0-9]`: the only characters `str::parse::<u64>`
accepts as digits. -/
def asciiDigit (c : Char) : Bool := decide ('0' ≤ c ∧ c ≤ '9')

/-- The scalar-value ranges of the Unicode general category `Nd`
(decimal digit number), Unicode 9.0 — the era of the `regex` crate this
code builds against; `\d` is Unicode-aware (`\p{Nd}`) by default in that
crate. Later Unicode versions only add ranges for newly encoded scripts;
every theorem below depends only on range facts stable across versions:
`0030-0039` and `0660-0669` are in `Nd`, and no `Nd` scalar below `U+0080`
lies outside `0030-0039`. -/
def ndRanges : List (Nat × Nat) :=
  [(0x30, 0x39), (0x660, 0x669), (0x6F0, 0x6F9), (0x7C0, 0x7C9),
   (0x966, 0x96F), (0x9E6, 0x9EF), (0xA66, 0xA6F), (0xAE6, 0xAEF),
   (0xB66, 0xB6F), (0xBE6, 0xBEF), (0xC66, 0xC6F), (0xCE6, 0xCEF),
   (0xD66, 0xD6F), (0xDE6, 0xDEF), (0xE50, 0xE59), (0xED0, 0xED9),
   (0xF20, 0xF29), (0x1040, 0x1049), (0x1090, 0x1099), (0x17E0, 0x17E9),
   (0x1810, 0x1819), (0x1946, 0x194F), (0x19D0, 0x19D9), (0x1A80, 0x1A89),
   (0x1A90, 0x1A99), (0x1B50, 0x1B59), (0x1BB0, 0x1BB9), (0x1C40, 0x1C49),
   (0x1C50, 0x1C59), (0xA620, 0xA629), (0xA8D0, 0xA8D9), (0xA900, 0xA909),
   (0xA9D0, 0xA9D9), (0xA9F0, 0xA9F9), (0xAA50, 0xAA59), (0xABF0, 0xABF9),
   (0xFF10, 0xFF19), (0x104A0, 0x104A9), (0x11066, 0x1106F),
   (0x110F0, 0x110F9), (0x11136, 0x1113F), (0x111D0, 0x111D9),
   (0x112F0, 0x112F9), (0x11450, 0x11459), (0x114D0, 0x114D9),
   (0x11650, 0x11659), (0x116C0, 0x116C9), (0x11730, 0x11739),
   (0x118E0, 0x118E9), (0x11C50, 0x11C59), (0x16A60, 0x16A69),
   (0x16B50, 0x16B59), (0x1D7CE, 0x1D7FF), (0x1E950, 0x1E959)]

/-- Character class `\d` of `SEMVER_REGEX`: the `regex` crate's default,
Unicode-aware `\d`, i.e. `\p{Nd}`. -/
def unicodeDigit (c : Char) : Bool :=
  ndRanges.any (fun r => decide (r.1 ≤ c.toNat ∧ c.toNat ≤ r.2))

/-- The regex fragment `[1-9]\d*`: an explicit ASCII `[1-9]` head followed
by any run of Unicode `\d` digits. -/
def noLeadZeroNum : List Char → Bool
  | [] => false
  | c :: rest => decide ('1' ≤ c ∧ c ≤ '9') && rest.all unicodeDigit

/-- One capture group of `SEMVER_REGEX` (`types.rs` line 10): the
alternation `\d|([1-9]\d*)` applied to a whole dot-separated component. -/
def semverComponentCode (l : List Char) : Bool :=
  (match l with
   | [d] => unicodeDigit d
   | _ => false) || noLeadZeroNum l

/-- The spec's wording of the same component (§4.2): `0|[1-9]\d*`.
Declared for the refinement comparison with `semverComponentCode`; the
two differ exactly in their first alternative (`\d` versus the literal
`0`). -/
def semverComponentSpec (l : List Char) : Bool :=
  decide (l = ['0']) || noLeadZeroNum l

/-- Split a character list at every occurrence of `sep`; the component
regexes exclude the separator, so `SEMVER_REGEX` matches exactly when the
split has three parts each matching the component alternation. -/
def splitOnChar (sep : Char) : List Char → List (List Char)
  | [] => [[]]
  | c :: rest =>
    let ps := splitOnChar sep rest
    if c = sep then [] :: ps
    else
      match ps with
      | p :: tail => (c :: p) :: tail
      | [] => [[c]]

/-- `str::parse::<u64>` on a regex capture: parsing succeeds exactly on a
nonempty ASCII digit run whose value fits in a `u64`; a non-ASCII Unicode
digit yields `Err(InvalidDigit)` and an oversized value
`Err(PosOverflow)`, and in `ACVersion::from_json` either `Err` meets an
`unwrap()` and panics. -/
def rustParseU64 (l : List Char) : Option Nat :=
  if l.isEmpty || !(l.all asciiDigit) then none
  else
    let n := l.foldl (fun acc c => acc * 10 + (c.toNat - '0'.toNat)) 0
    if n < 2 ^ 64 then some n else none

/-- `types.rs` lines 114-118: `ACVersion`. -/
structure ACVersion where
  major : Nat
  minor : Nat
  patch : Nat
deriving DecidableEq

/-- `types.rs` lines 121-139: `ACVersion::from_json`. The result is wrapped
in `Option`: `none` models the Rust panic raised by
`captures.name(..).unwrap().parse::<u64>().unwrap()` when the captured
digit run does not fit in a `u64`. -/
def ACVersion.from_json : Json → Option (TypeResult ACVersion)
  | .str version =>
    match splitOnChar '.' version.data with
    | [ma, mi, pa] =>
      if semverComponentCode ma && semverComponentCode mi && semverComponentCode pa then
        match rustParseU64 ma, rustParseU64 mi, rustParseU64 pa with
        | some a, some b, some c => some (.ok ⟨a, b, c⟩)
        | _, _, _ => none
      else some (.error "Invalid AC Version")
    | _ => some (.error "Invalid AC Version")
  | _ => some (.error "Invalid AC Version")

/-- `types.rs` lines 142-144: `HashAlgorithm`. -/
inductive HashAlgorithm where
  | sha512
deriving DecidableEq

/-- `types.rs` lines 146-149: `ImageID`. -/
structure ImageID where
  hash : HashAlgorithm
  value : String
deriving DecidableEq

/-- Character class `[0-9A-Fa-f]` of `IMAGE_ID_REGEX`. -/
def hexChar (c : Char) : Bool :=
  decide (('0' ≤ c ∧ c ≤ '9') ∨ ('A' ≤ c ∧ c ≤ 'F') ∨ ('a' ≤ c ∧ c ≤ 'f'))

/-- Split at the first `'-'`. `IMAGE_ID_REGEX = ^([^-]+)-([0-9A-Fa-f]+)$`
forbids `'-'` in both captures, so only a split at the first `'-'` can
match: the regex matches exactly when this split exists, its left part is
nonempty, and its right part is a nonempty hex run. -/
def imageIdSplit : List Char → Option (List Char × List Char)
  | [] => none
  | c :: rest =>
    if c = '-' then some ([], rest)
    else
      match imageIdSplit rest with
      | some (a, b) => some (c :: a, b)
      | none => none

/-- The two captures of `IMAGE_ID_REGEX` (`types.rs` line 11), when the
regex matches. -/
def imageIdCaptures (l : List Char) : Option (List Char × List Char) :=
  match imageIdSplit l with
  | some (a, b) =>
    if !a.isEmpty && !b.isEmpty && b.all hexChar then some (a, b) else none
  | none => none

/-- `types.rs` lines 152-172: `ImageID::from_json`. -/
def ImageID.from_json : Json → TypeResult ImageID
  | .str image_id =>
    match imageIdCaptures image_id.data with
    | some (hash, value) =>
      if String.mk hash = "sha512" then .ok ⟨.sha512, String.mk value⟩
      else .error "Invalid Image ID"
    | none => .error "Invalid Image ID"
  | _ => .error "Invalid Image ID"

/-- `types.rs` lines 175-178: `Isolator` (the `value` is an owned copy of
an arbitrary JSON subtree). -/
structure Isolator where
  name : ACIdentifier
  value : Json

/-- `types.rs` lines 181-184: `Isolator::parse_error`. -/
def Isolator.parse_error (path message : String) : String :=
  path ++ " " ++ message ++
  "\nhttps://github.com/appc/spec/blob/v0.7.4/spec/types.md#isolator-type"

/-- `types.rs` lines 186-195: `Isolator::parse_name_field`. -/
def Isolator.parse_name_field (obj : List (String × Json)) (path : String) :
    VecParseResult ACIdentifier :=
  let new_path := path ++ "[\"name\"]"
  match jsonGet obj "name" with
  | some (.str name) => ACIdentifier.from_string name new_path
  | some _ => .error [Isolator.parse_error new_path "must be a string."]
  | none => .error [Isolator.parse_error new_path "must be defined."]

/-- `types.rs` lines 197-225: `Isolator::from_json`. The `errors` vector
accumulates the name-field errors (via `combine`) and then the
value-field error (via `push`), in that order. -/
def Isolator.from_json (json : Json) (path : String) : VecParseResult Isolator :=
  match json with
  | .object obj =>
    let nameRes := Isolator.parse_name_field obj path
    let nameErrs := match nameRes with
      | .ok _ => []
      | .error es => es
    match jsonGet obj "value" with
    | some v =>
      match nameRes with
      | .ok n => .ok ⟨n, v⟩
      | .error _ => .error nameErrs
    | none =>
      .error (nameErrs ++ [Isolator.parse_error (path ++ "[\"value\"]") "must be defined."])
  | _ => .error [Isolator.parse_error path "must be an object."]

/-- `types.rs` line 82: `ACName(String)`. -/
structure ACName where
  val : String
deriving DecidableEq

/-- Modelled from the spec: `port.rs` and `mount_point.rs` call
`ACName::from_json` through util.rs's `Parseable`-for-`StringWrapper`
machinery, but no `StringWrapper for ACName` impl is under `src/`
(`types.rs` has an older path-threading API instead). Modelled as the
other `StringWrapper` impls: a string matching `AC_NAME_REGEX` is wrapped,
a mismatch is a `Node` error ("rejects uppercase and separators other
than `-`", spec §4.2). -/
def ACName.from_string (s : String) : ParseResult ACName :=
  if acNameMatch s then .ok ⟨s⟩
  else .error (.node ["must be a valid AC Name."])

/-- Modelled from the spec: the blanket `Parseable` impl of `util.rs`
lines 30-37 applied to `ACName.from_string`. -/
def ACName.from_json : Json → ParseResult ACName
  | .str s => ACName.from_string s
  | _ => .error (.node ["must be a string"])

/-- `src/image_manifest/app/port.rs` lines 6-12: `Port`. The `port` field
is stored as `u16` after the range check; its model is `Nat`. -/
structure Port where
  count : Nat
  name : ACName
  port : Nat
  protocol : String
  socket_activated : Bool
deriving DecidableEq

/-- `port.rs` lines 25-37: the `count` field arm. Absence leaves the
default `count = 1`; a non-`U64` value is "must be a positive integer";
`0` is "must be >= 1". -/
def Port.countCheck (o : List (String × Json)) : ParseResult Nat :=
  match jsonGet o "count" with
  | some (.u64 c) =>
    if c < 1 then .error (.node ["must be >= 1"]) else .ok c
  | some _ => .error (.node ["must be a positive integer"])
  | none => .ok 1

/-- `port.rs` lines 39-49: the `name` field arm. -/
def Port.nameCheck (o : List (String × Json)) : ParseResult ACName :=
  match jsonGet o "name" with
  | some name_json => ACName.from_json name_json
  | none => .error (.node ["must be defined"])

/-- `port.rs` lines 51-65: the `port` field arm. -/
def Port.portCheck (o : List (String × Json)) : ParseResult Nat :=
  match jsonGet o "port" with
  | some (.u64 p) =>
    if p < 1 || p > 65535 then .error (.node ["must be >= 1 and <= 65535"])
    else .ok p
  | some _ => .error (.node ["must be a positive integer"])
  | none => .error (.node ["must be defined"])

/-- `port.rs` lines 67-77: the `protocol` field arm. -/
def Port.protocolCheck (o : List (String × Json)) : ParseResult String :=
  match jsonGet o "protocol" with
  | some protocol_json => String.from_json protocol_json
  | none => .error (.node ["must be defined"])

/-- `port.rs` lines 79-85: the `socketActivated` field arm. Absence leaves
the default `socket_activated = false`. -/
def Port.saCheck (o : List (String × Json)) : ParseResult Bool :=
  match jsonGet o "socketActivated" with
  | some (.boolean sa) => .ok sa
  | some _ => .error (.node ["must be a boolean"])
  | none => .ok false

/-- The `errors` BTreeMap of `Port::from_json` after all five field arms
have run (insertions in program order; keys are distinct). -/
def Port.errMap (o : List (String × Json)) : List (String × Errors) :=
  errInsert "socketActivated" (Port.saCheck o)
    (errInsert "protocol" (Port.protocolCheck o)
      (errInsert "port" (Port.portCheck o)
        (errInsert "name" (Port.nameCheck o)
          (errInsert "count" (Port.countCheck o) []))))

/-- `port.rs` lines 14-101: `Port::from_json`. Every field arm runs on any
object input; the struct is built exactly when the error map stayed empty
(the map receives an entry exactly when an arm failed, so the all-ok match
below coincides with the `errors.is_empty()` test of the source, and the
source's `unwrap()` calls on the three required fields are covered by the
ok patterns). -/
def Port.from_json : Json → ParseResult Port
  | .object o =>
    match Port.countCheck o, Port.nameCheck o, Port.portCheck o,
          Port.protocolCheck o, Port.saCheck o with
    | .ok c, .ok n, .ok p, .ok pr, .ok sa => .ok ⟨c, n, p, pr, sa⟩
    | _, _, _, _, _ => .error (.object (Port.errMap o))
  | _ => .error (.node ["must be an object"])

/-- `src/image_manifest/app/mount_point.rs` lines 6-10: `MountPoint`. -/
structure MountPoint where
  name : ACName
  path : String
  read_only : Bool
deriving DecidableEq

/-- `mount_point.rs` lines 21-31: the `name` field arm. -/
def MountPoint.nameCheck (o : List (String × Json)) : ParseResult ACName :=
  match jsonGet o "name" with
  | some name_json => ACName.from_json name_json
  | none => .error (.node ["must be defined"])

/-- `mount_point.rs` lines 33-43: the `path` field arm. -/
def MountPoint.pathCheck (o : List (String × Json)) : ParseResult String :=
  match jsonGet o "path" with
  | some path_json => String.from_json path_json
  | none => .error (.node ["must be defined"])

/-- `mount_point.rs` lines 45-49: the `readOnly` field arm. Absence leaves
the default `read_only = false`. -/
def MountPoint.roCheck (o : List (String × Json)) : ParseResult Bool :=
  match jsonGet o "readOnly" with
  | some (.boolean ro) => .ok ro
  | some _ => .error (.node ["must be a boolean"])
  | none => .ok false

/-- The `errors` BTreeMap of `MountPoint::from_json` after all three field
arms have run. -/
def MountPoint.errMap (o : List (String × Json)) : List (String × Errors) :=
  errInsert "readOnly" (MountPoint.roCheck o)
    (errInsert "path" (MountPoint.pathCheck o)
      (errInsert "name" (MountPoint.nameCheck o) []))

/-- `mount_point.rs` lines 12-64: `MountPoint::from_json`. -/
def MountPoint.from_json : Json → ParseResult MountPoint
  | .object o =>
    match MountPoint.nameCheck o, MountPoint.pathCheck o, MountPoint.roCheck o with
    | .ok n, .ok p, .ok ro => .ok ⟨n, p, ro⟩
    | _, _, _ => .error (.object (MountPoint.errMap o))
  | _ => .error (.node ["must be an object"])

/-- Spec §7's error taxonomy entries relevant to the `acKind` rule:
`InvalidEnumValue` versus `SemanticKindMismatch` are distinct constructors. -/
inductive ACKindError where
  | invalidEnumValue (msg : String)
  | semanticKindMismatch (expected found : ACKind)
deriving DecidableEq

/-- Modelled from the spec: no `ImageManifest`/`PodManifest` validator
exists under `src/` (`src/image_manifest.rs` lines 399-408 and
`src/pod_manifest.rs` only declare the structs). Spec §4.5: the manifest
validator checks the `acKind` field against the fixed literal of the
manifest type being parsed, in addition to the enum check; a value parsing
as the *other* kind is a `SemanticKindMismatch`, not an `InvalidEnumValue`.
The enum part is the source's `ACKind::from_json` (`types.rs` lines 66-79). -/
def validate_ac_kind (expected : ACKind) (j : Json) : Except ACKindError ACKind :=
  match ACKind.from_json j with
  | .error m => .error (.invalidEnumValue m)
  | .ok k => if k = expected then .ok k else .error (.semanticKindMismatch expected k)

theorem char_le_iff_toNat (c d : Char) : c ≤ d ↔ c.toNat ≤ d.toNat := by
  rw [Char.le_def, UInt32.le_def, BitVec.le_def]
  rfl

theorem char_eq_iff_toNat (c d : Char) : c = d ↔ c.toNat = d.toNat := by
  rw [Char.ext_iff, UInt32.ext_iff]
  rfl

theorem asciiDigit_split (d : Char) :
    asciiDigit d = (decide (d = '0') || decide ('1' ≤ d ∧ d ≤ '9')) := by
  rw [asciiDigit, Bool.eq_iff_iff]
  simp only [decide_eq_true_eq, Bool.or_eq_true, char_le_iff_toNat, char_eq_iff_toNat]
  have h0 : ('0' : Char).toNat = 48 := by decide
  have h1 : ('1' : Char).toNat = 49 := by decide
  have h9 : ('9' : Char).toNat = 57 := by decide
  rw [h0, h1, h9]
  omega

theorem unicodeDigit_of_ascii (c : Char) (h : c.toNat < 128) :
    unicodeDigit c = asciiDigit c := by
  rw [unicodeDigit, ndRanges, asciiDigit, Bool.eq_iff_iff]
  simp only [List.any_cons, List.any_nil, Bool.or_eq_true, Bool.or_false,
    decide_eq_true_eq, char_le_iff_toNat]
  have h0 : ('0' : Char).toNat = 48 := by decide
  have h9 : ('9' : Char).toNat = 57 := by decide
  rw [h0, h9]
  omega

theorem semverComponent_eq_spec_of_ascii (l : List Char)
    (h : l.all (fun c => decide (c.toNat < 128)) = true) :
    semverComponentCode l = semverComponentSpec l := by
  match l with
  | [] => rfl
  | [c] =>
    have hc : c.toNat < 128 := by
      simpa using h
    have hd : decide ([c] = ['0']) = decide (c = '0') := by
      rw [decide_eq_decide]
      simp
    simp only [semverComponentCode, semverComponentSpec, noLeadZeroNum, hd,
      unicodeDigit_of_ascii c hc, asciiDigit_split, List.all_nil,
      Bool.and_true, Bool.or_assoc, Bool.or_self]
  | c1 :: c2 :: rest =>
    simp [semverComponentCode, semverComponentSpec]

/-- C8: refuted. Over the regex crate's Unicode-aware `\d` (`\p{Nd}`), the
code's component alternation `\d|([1-9]\d*)` accepts the single
Arabic-Indic digit component `٥` (U+0665), which the spec's `0|[1-9]\d*`
does not, so the two patterns do not accept the same language; and the
string `"99999999999999999999.0.0"` has all three dot-separated components
in the claimed language (literal `0` or no-leading-zero digit run) yet is
not accepted — `ACVersion::from_json` panics on it (the major value
overflows `u64`), refuting the claim's "accepted exactly when". -/
theorem semver_code_spec_languages_differ :
    semverComponentCode ['٥'] = true ∧
    semverComponentSpec ['٥'] = false ∧
    semverComponentSpec "99999999999999999999".data = true ∧
    semverComponentSpec "0".data = true ∧
    ACVersion.from_json (Json.str "99999999999999999999.0.0") = none :=
  ⟨rfl, rfl, rfl, rfl, rfl⟩

/-- C8 (amended): `ACVersion` validation of `"1.2.3"` succeeds with major
1, minor 2, patch 3, while `"1.2"` and `"01.2.3"` both fail; restricted to
ASCII strings the code's component alternation `\d|([1-9]\d*)` accepts
exactly the same language as the spec's `0|[1-9]\d*` (over the crate's
Unicode `\d` the code accepts strictly more); and a version string is
accepted — rather than rejected or panicked on — exactly when it has
three dot-separated components, each matching the code's alternation, and
each parseable into a `u64` (a non-ASCII digit or an oversized value makes
the `parse::<u64>().unwrap()` panic instead). -/
theorem acversion_semver_ascii_language :
    ACVersion.from_json (Json.str "1.2.3") = some (Except.ok ⟨1, 2, 3⟩) ∧
    ACVersion.from_json (Json.str "1.2") = some (Except.error "Invalid AC Version") ∧
    ACVersion.from_json (Json.str "01.2.3") = some (Except.error "Invalid AC Version") ∧
    (∀ l : List Char, l.all (fun c => decide (c.toNat < 128)) = true →
      semverComponentCode l = semverComponentSpec l) ∧
    (∀ s : String,
      (∃ v, ACVersion.from_json (Json.str s) = some (Except.ok v)) ↔
      (∃ ma mi pa, splitOnChar '.' s.data = [ma, mi, pa] ∧
        semverComponentCode ma = true ∧ semverComponentCode mi = true ∧
        semverComponentCode pa = true ∧ (rustParseU64 ma).isSome = true ∧
        (rustParseU64 mi).isSome = true ∧ (rustParseU64 pa).isSome = true)) := by
  refine ⟨by rfl, by rfl, by rfl, semverComponent_eq_spec_of_ascii, ?_⟩
  intro s
  constructor
  · rintro ⟨v, hv⟩
    rcases hsplit : splitOnChar '.' s.data with _ | ⟨ma, _ | ⟨mi, _ | ⟨pa, _ | ⟨x, tl⟩⟩⟩⟩ <;>
      simp only [ACVersion.from_json, hsplit] at hv
    · exact absurd hv (by simp)
    · exact absurd hv (by simp)
    · exact absurd hv (by simp)
    · by_cases hb : (semverComponentCode ma && semverComponentCode mi &&
          semverComponentCode pa) = true
      · rw [if_pos hb] at hv
        rw [Bool.and_eq_true, Bool.and_eq_true] at hb
        rcases hma : rustParseU64 ma with _ | a <;> rw [hma] at hv
        · exact absurd hv (by simp)
        · rcases hmi : rustParseU64 mi with _ | b <;> rw [hmi] at hv
          · exact absurd hv (by simp)
          · rcases hpa : rustParseU64 pa with _ | c <;> rw [hpa] at hv
            · exact absurd hv (by simp)
            · exact ⟨ma, mi, pa, rfl, hb.1.1, hb.1.2, hb.2,
                by rw [hma]; rfl, by rw [hmi]; rfl, by rw [hpa]; rfl⟩
      · rw [if_neg hb] at hv
        exact absurd hv (by simp)
    · exact absurd hv (by simp)
  · rintro ⟨ma, mi, pa, hsplit, h1, h2, h3, h4, h5, h6⟩
    rcases Option.isSome_iff_exists.mp h4 with ⟨a, hma⟩
    rcases Option.isSome_iff_exists.mp h5 with ⟨b, hmi⟩
    rcases Option.isSome_iff_exists.mp h6 with ⟨c, hpa⟩
    refine ⟨⟨a, b, c⟩, ?_⟩
    simp only [ACVersion.from_json, hsplit, h1, h2, h3, Bool.and_self,
      if_pos, hma, hmi, hpa]

theorem acversion_semver_ascii_language_witness :
    semverComponentCode "42".data = semverComponentSpec "42".data ∧
    (∃ ma mi pa, splitOnChar '.' ("7.0.9" : String).data = [ma, mi, pa] ∧
      semverComponentCode ma = true ∧ semverComponentCode mi = true ∧
      semverComponentCode pa = true ∧ (rustParseU64 ma).isSome = true ∧
      (rustParseU64 mi).isSome = true ∧ (rustParseU64 pa).isSome = true) :=
  ⟨acversion_semver_ascii_language.2.2.2.1 "42".data (by decide),
    (acversion_semver_ascii_language.2.2.2.2 "7.0.9").mp ⟨⟨7, 0, 9⟩, rfl⟩⟩

/-- C3: refuted at a concrete input. `ACVersion::from_json` on the string
`"18446744073709551616.0.0"` matches `SEMVER_REGEX` (the major capture is
`[1-9]\d*`), but the captured value is `2^64`, so
`captures.name("major").unwrap().parse::<u64>().unwrap()` panics on the
`PosOverflow` parse error — the unwrap the code's comment declares safe is
reachable, and the validator is not total. `none` is the panic in this
model. -/
theorem acversion_parse_unwrap_panics :
    ACVersion.from_json (Json.str "18446744073709551616.0.0") = none := by rfl

/-- C5: an `ImageManifest` validator handed `acKind:"PodManifest"` fails
with a `SemanticKindMismatch`, which is a different error from the
`InvalidEnumValue` produced for a string that is neither kind literal
(`ACKind::from_json` itself accepts `"PodManifest"`, so the mismatch is
semantic, not an enum failure). -/
theorem imagemanifest_ackind_semantic_mismatch :
    validate_ac_kind ACKind.imageManifest (Json.str "PodManifest") =
      Except.error (ACKindError.semanticKindMismatch ACKind.imageManifest ACKind.podManifest) ∧
    validate_ac_kind ACKind.imageManifest (Json.str "Foo") =
      Except.error (ACKindError.invalidEnumValue "Invalid AC Kind") ∧
    decide (ACKindError.semanticKindMismatch ACKind.imageManifest ACKind.podManifest =
      ACKindError.invalidEnumValue "Invalid AC Kind") = false ∧
    ACKind.from_json (Json.str "PodManifest") = Except.ok ACKind.podManifest := by
  refine ⟨by rfl, by rfl, by rfl, by rfl⟩

/-- C1: refuted. `ImageID::from_json` reports the unsupported hash
algorithm `sha256` with the very same error value, `"Invalid Image ID"`,
that it reports for a string that does not match `IMAGE_ID_REGEX` at all —
the two failure messages are not distinct. -/
theorem imageID_unsupported_alg_message_not_distinct :
    ImageID.from_json (Json.str "sha256-deadbeef") = Except.error "Invalid Image ID" ∧
    ImageID.from_json (Json.str "deadbeef") = Except.error "Invalid Image ID" :=
  ⟨rfl, rfl⟩

theorem imageIdSplit_append (alg hex : List Char)
    (h : alg.all (fun c => c != '-') = true) :
    imageIdSplit (alg ++ '-' :: hex) = some (alg, hex) := by
  induction alg with
  | nil => simp [imageIdSplit]
  | cons c cs ih =>
    rw [List.all_cons, Bool.and_eq_true, bne_iff_ne] at h
    simp only [List.cons_append, imageIdSplit, if_neg h.1, List.append_eq, ih h.2]

/-- C1 (amended): for every well-formed `<alg>-<hex>` string whose
algorithm tag is not `sha512`, validation fails through the
unsupported-algorithm branch but with the same `"Invalid Image ID"`
message produced for malformed strings; `"sha512-deadbeef"` succeeds with
algorithm `sha512` and digest `"deadbeef"`. -/
theorem imageID_uniform_error_message (alg hex : List Char)
    (h1 : alg ≠ []) (h2 : alg.all (fun c => c != '-') = true)
    (h3 : hex ≠ []) (h4 : hex.all hexChar = true)
    (h5 : String.mk alg ≠ "sha512") :
    ImageID.from_json (Json.str (String.mk (alg ++ '-' :: hex))) =
      Except.error "Invalid Image ID" ∧
    ImageID.from_json (Json.str "sha512-deadbeef") =
      Except.ok ⟨HashAlgorithm.sha512, "deadbeef"⟩ := by
  refine ⟨?_, by rfl⟩
  show (match imageIdCaptures (String.mk (alg ++ '-' :: hex)).data with
    | some (hash, value) =>
      if String.mk hash = "sha512" then
        Except.ok (⟨.sha512, String.mk value⟩ : ImageID)
      else Except.error "Invalid Image ID"
    | none => Except.error "Invalid Image ID") = Except.error "Invalid Image ID"
  have hdata : (String.mk (alg ++ '-' :: hex)).data = alg ++ '-' :: hex := rfl
  rw [hdata, imageIdCaptures, imageIdSplit_append alg hex h2]
  simp [h1, h3, h4, h5]

theorem imageID_uniform_error_message_witness :
    ImageID.from_json (Json.str (String.mk ("sha256".data ++ '-' :: "deadbeef".data))) =
      Except.error "Invalid Image ID" :=
  (imageID_uniform_error_message "sha256".data "deadbeef".data (by decide) (by decide)
    (by decide) (by decide) (by decide)).1

/-- C2: refuted on the `src/image_manifest.rs` snapshot of the exec
validator. The element loop pushes a `None` slot for every *passing*
element, so for the array `["sh"]`, whose single element validates, the
final `errors.is_empty()` test is false and the validator returns
`Err(Errors::Array([None]))` instead of `Ok(vec!["sh"])` — validation
fails although no element failed. The later snapshot in
`src/image_manifest/app/event_handler.rs` tests `any(is_some)` and
returns `Ok(["sh"])` as the claim states. -/
theorem exec_from_json_snapshot_rejects_valid_array :
    EventHandler.exec_from_json (Json.array [Json.str "sh"]) =
      Except.error (Errors.array [none]) ∧
    String.from_json (Json.str "sh") = Except.ok "sh" ∧
    exec_from_json (Json.array [Json.str "sh"]) = Except.ok ["sh"] :=
  ⟨rfl, rfl, rfl⟩

/-- C4: refuted on the `src/image_manifest.rs` snapshot of the exec
validator: for the array `["ls"]` it returns the failure
`Errors::Array([None])`, a Sequence whose every slot is `None` — an
"empty but present" ErrorTree, which spec §4.1's recursive emptiness
check classifies as empty. -/
theorem exec_from_json_returns_all_empty_error_tree :
    EventHandler.exec_from_json (Json.array [Json.str "ls"]) =
      Except.error (Errors.array [none]) ∧
    Errors.isEmptyRec (Errors.array [none]) = true := by
  refine ⟨rfl, ?_⟩
  simp [Errors.isEmptyRec, Errors.slotsEmptyRec]

theorem errLookup_cons_self (k : String) (v : Errors) (m : List (String × Errors)) :
    errLookup ((k, v) :: m) k = some v := by
  simp [errLookup, List.find?]

theorem errLookup_cons_ne (k k' : String) (v : Errors) (m : List (String × Errors))
    (h : k' ≠ k) : errLookup ((k, v) :: m) k' = errLookup m k' := by
  simp [errLookup, List.find?, Ne.symm h]

theorem errLookup_btreeInsert (k k' : String) (e : Errors)
    (m : List (String × Errors)) :
    errLookup (btreeInsert k e m) k' = if k' = k then some e else errLookup m k' := by
  induction m with
  | nil =>
    simp only [btreeInsert]
    by_cases h : k' = k
    · subst h
      rw [errLookup_cons_self, if_pos rfl]
    · rw [errLookup_cons_ne k k' e _ h, if_neg h]
  | cons kv rest ih =>
    obtain ⟨k1, v1⟩ := kv
    simp only [btreeInsert]
    by_cases hlt : k < k1
    · rw [if_pos hlt]
      by_cases h : k' = k
      · subst h
        rw [errLookup_cons_self, if_pos rfl]
      · rw [errLookup_cons_ne k k' e _ h, if_neg h]
    · rw [if_neg hlt]
      by_cases heq : k = k1
      · rw [if_pos heq]
        subst heq
        by_cases h : k' = k
        · subst h
          rw [errLookup_cons_self, if_pos rfl]
        · rw [errLookup_cons_ne k k' e _ h, if_neg h, errLookup_cons_ne k k' v1 _ h]
      · rw [if_neg heq]
        by_cases h1 : k' = k1
        · subst h1
          have h2 : k' ≠ k := fun hh => heq hh.symm
          rw [errLookup_cons_self, if_neg h2, errLookup_cons_self]
        · rw [errLookup_cons_ne k1 k' v1 _ h1, ih]
          by_cases h : k' = k
          · rw [if_pos h, if_pos h]
          · rw [if_neg h, if_neg h, errLookup_cons_ne k1 k' v1 _ h1]

theorem errLookup_errInsert_ne {α : Type} (k k' : String) (r : Except Errors α)
    (m : List (String × Errors)) (h : k' ≠ k) :
    errLookup (errInsert k r m) k' = errLookup m k' := by
  cases r with
  | error e => simp [errInsert, errLookup_btreeInsert, h]
  | ok _ => rfl

theorem errLookup_errInsert_self {α : Type} (k : String) (r : Except Errors α)
    (m : List (String × Errors)) :
    errLookup (errInsert k r m) k =
      (match r with
       | .error e => some e
       | .ok _ => errLookup m k) := by
  cases r with
  | error e => simp [errInsert, errLookup_btreeInsert]
  | ok _ => rfl
/-- C6: on any JSON object, `Port::from_json` runs every field arm
(each map entry is exactly the outcome of its own field's check,
independent of sibling fields), merges all failures into one error map
keyed by field name, and constructs the struct exactly when that map is
empty; concretely, `{"name":"http","port":0,"protocol":"tcp"}` fails with
only the out-of-range message at the `port` key, the valid siblings
contributing no entry, and no `Port` value is produced. -/
theorem port_validates_all_fields_and_merges_by_name (o : List (String × Json)) :
    (Port.errMap o = [] ∨
      Port.from_json (Json.object o) = Except.error (Errors.object (Port.errMap o))) ∧
    ((∃ p, Port.from_json (Json.object o) = Except.ok p) ↔ Port.errMap o = []) ∧
    errLookup (Port.errMap o) "count" = excErr (Port.countCheck o) ∧
    errLookup (Port.errMap o) "name" = excErr (Port.nameCheck o) ∧
    errLookup (Port.errMap o) "port" = excErr (Port.portCheck o) ∧
    errLookup (Port.errMap o) "protocol" = excErr (Port.protocolCheck o) ∧
    errLookup (Port.errMap o) "socketActivated" = excErr (Port.saCheck o) ∧
    Port.from_json (Json.object
        [("name", Json.str "http"), ("port", Json.u64 0), ("protocol", Json.str "tcp")]) =
      Except.error (Errors.object [("port", Errors.node ["must be >= 1 and <= 65535"])]) := by
  refine ⟨?_, ?_, ?_, ?_, ?_, ?_, ?_, by rfl⟩
  · rcases hc : Port.countCheck o with ec | c <;>
    rcases hn : Port.nameCheck o with en | n <;>
    rcases hp : Port.portCheck o with ep | p <;>
    rcases hpr : Port.protocolCheck o with epr | pr <;>
    rcases hsa : Port.saCheck o with esa | sa <;>
      simp +decide [Port.from_json, Port.errMap, hc, hn, hp, hpr, hsa, errInsert, btreeInsert]
  · rcases hc : Port.countCheck o with ec | c <;>
    rcases hn : Port.nameCheck o with en | n <;>
    rcases hp : Port.portCheck o with ep | p <;>
    rcases hpr : Port.protocolCheck o with epr | pr <;>
    rcases hsa : Port.saCheck o with esa | sa <;>
      simp +decide [Port.from_json, Port.errMap, hc, hn, hp, hpr, hsa, errInsert, btreeInsert]
  · rw [Port.errMap,
      errLookup_errInsert_ne _ _ _ _ (by decide),
      errLookup_errInsert_ne _ _ _ _ (by decide),
      errLookup_errInsert_ne _ _ _ _ (by decide),
      errLookup_errInsert_ne _ _ _ _ (by decide),
      errLookup_errInsert_self]
    rcases hc : Port.countCheck o with ec | c <;> simp [excErr, errLookup]
  · rw [Port.errMap,
      errLookup_errInsert_ne _ _ _ _ (by decide),
      errLookup_errInsert_ne _ _ _ _ (by decide),
      errLookup_errInsert_ne _ _ _ _ (by decide),
      errLookup_errInsert_self]
    rcases hn : Port.nameCheck o with en | n
    · simp [hn, excErr]
    · simp only [hn]
      rw [errLookup_errInsert_ne _ _ _ _ (by decide : ("name" : String) ≠ "count")]
      simp [errLookup, excErr]
  · rw [Port.errMap,
      errLookup_errInsert_ne _ _ _ _ (by decide),
      errLookup_errInsert_ne _ _ _ _ (by decide),
      errLookup_errInsert_self]
    rcases hp : Port.portCheck o with ep | p
    · simp [hp, excErr]
    · simp only [hp]
      rw [errLookup_errInsert_ne _ _ _ _ (by decide : ("port" : String) ≠ "name"),
        errLookup_errInsert_ne _ _ _ _ (by decide : ("port" : String) ≠ "count")]
      simp [errLookup, excErr]
  · rw [Port.errMap,
      errLookup_errInsert_ne _ _ _ _ (by decide),
      errLookup_errInsert_self]
    rcases hpr : Port.protocolCheck o with epr | pr
    · simp [hpr, excErr]
    · simp only [hpr]
      rw [errLookup_errInsert_ne _ _ _ _ (by decide : ("protocol" : String) ≠ "port"),
        errLookup_errInsert_ne _ _ _ _ (by decide : ("protocol" : String) ≠ "name"),
        errLookup_errInsert_ne _ _ _ _ (by decide : ("protocol" : String) ≠ "count")]
      simp [errLookup, excErr]
  · rw [Port.errMap, errLookup_errInsert_self]
    rcases hsa : Port.saCheck o with esa | sa
    · simp [hsa, excErr]
    · simp only [hsa]
      rw [errLookup_errInsert_ne _ _ _ _ (by decide : ("socketActivated" : String) ≠ "protocol"),
        errLookup_errInsert_ne _ _ _ _ (by decide : ("socketActivated" : String) ≠ "port"),
        errLookup_errInsert_ne _ _ _ _ (by decide : ("socketActivated" : String) ≠ "name"),
        errLookup_errInsert_ne _ _ _ _ (by decide : ("socketActivated" : String) ≠ "count")]
      simp [errLookup, excErr]

/-- C7: on any JSON object that validates as a `Port`, an absent `count`
key yields `count == 1` and an absent `socketActivated` key yields
`socket_activated == false`; on any JSON object that validates as a
`MountPoint`, an absent `readOnly` key yields `read_only == false`. -/
theorem port_mountpoint_defaults :
    (∀ o p, jsonGet o "count" = none →
      Port.from_json (Json.object o) = Except.ok p → p.count = 1) ∧
    (∀ o p, jsonGet o "socketActivated" = none →
      Port.from_json (Json.object o) = Except.ok p → p.socket_activated = false) ∧
    (∀ o m, jsonGet o "readOnly" = none →
      MountPoint.from_json (Json.object o) = Except.ok m → m.read_only = false) := by
  refine ⟨?_, ?_, ?_⟩
  · intro o p habs hok
    rcases hc : Port.countCheck o with ec | c <;>
    rcases hn : Port.nameCheck o with en | n <;>
    rcases hp : Port.portCheck o with ep | pv <;>
    rcases hpr : Port.protocolCheck o with epr | pr <;>
    rcases hsa : Port.saCheck o with esa | sa <;>
      simp only [Port.from_json, hc, hn, hp, hpr, hsa, reduceCtorEq] at hok
    have h1 : Port.countCheck o = Except.ok 1 := by
      simp [Port.countCheck, habs]
    rw [hc] at h1
    injection h1 with h1
    injection hok with hok
    rw [← hok]
    exact h1
  · intro o p habs hok
    rcases hc : Port.countCheck o with ec | c <;>
    rcases hn : Port.nameCheck o with en | n <;>
    rcases hp : Port.portCheck o with ep | pv <;>
    rcases hpr : Port.protocolCheck o with epr | pr <;>
    rcases hsa : Port.saCheck o with esa | sa <;>
      simp only [Port.from_json, hc, hn, hp, hpr, hsa, reduceCtorEq] at hok
    have h1 : Port.saCheck o = Except.ok false := by
      simp [Port.saCheck, habs]
    rw [hsa] at h1
    injection h1 with h1
    injection hok with hok
    rw [← hok]
    exact h1
  · intro o m habs hok
    rcases hn : MountPoint.nameCheck o with en | n <;>
    rcases hp : MountPoint.pathCheck o with ep | pv <;>
    rcases hro : MountPoint.roCheck o with ero | ro <;>
      simp only [MountPoint.from_json, hn, hp, hro, reduceCtorEq] at hok
    have h1 : MountPoint.roCheck o = Except.ok false := by
      simp [MountPoint.roCheck, habs]
    rw [hro] at h1
    injection h1 with h1
    injection hok with hok
    rw [← hok]
    exact h1

theorem port_mountpoint_defaults_witness :
    jsonGet [("name", Json.str "http"), ("port", Json.u64 80), ("protocol", Json.str "tcp")]
        "count" = none ∧
    jsonGet [("name", Json.str "http"), ("port", Json.u64 80), ("protocol", Json.str "tcp")]
        "socketActivated" = none ∧
    jsonGet [("name", Json.str "data"), ("path", Json.str "/var/data")] "readOnly" = none ∧
    (⟨1, ⟨"http"⟩, 80, "tcp", false⟩ : Port).count = 1 ∧
    (⟨1, ⟨"http"⟩, 80, "tcp", false⟩ : Port).socket_activated = false ∧
    (⟨⟨"data"⟩, "/var/data", false⟩ : MountPoint).read_only = false :=
  ⟨rfl, rfl, rfl,
    port_mountpoint_defaults.1
      [("name", Json.str "http"), ("port", Json.u64 80), ("protocol", Json.str "tcp")]
      ⟨1, ⟨"http"⟩, 80, "tcp", false⟩ rfl rfl,
    port_mountpoint_defaults.2.1
      [("name", Json.str "http"), ("port", Json.u64 80), ("protocol", Json.str "tcp")]
      ⟨1, ⟨"http"⟩, 80, "tcp", false⟩ rfl rfl,
    port_mountpoint_defaults.2.2
      [("name", Json.str "data"), ("path", Json.str "/var/data")]
      ⟨⟨"data"⟩, "/var/data", false⟩ rfl rfl⟩

/-- C9: whenever the `port` or `count` key of a `Port` object is present
with a value that is not a JSON `U64` (a negative integer, float, string,
boolean, null, array or object), the field arm records the
"must be a positive integer" error at that field — the value is never
coerced — and for `port` the whole validation fails with that entry in
the merged error map. -/
theorem port_count_require_u64 :
    (∀ o v, jsonGet o "port" = some v → v.isU64 = false →
      Port.portCheck o = Except.error (Errors.node ["must be a positive integer"]) ∧
      errLookup (Port.errMap o) "port" =
        some (Errors.node ["must be a positive integer"]) ∧
      Port.from_json (Json.object o) = Except.error (Errors.object (Port.errMap o))) ∧
    (∀ o v, jsonGet o "count" = some v → v.isU64 = false →
      Port.countCheck o = Except.error (Errors.node ["must be a positive integer"]) ∧
      errLookup (Port.errMap o) "count" =
        some (Errors.node ["must be a positive integer"])) := by
  have hportCheck : ∀ o v, jsonGet o "port" = some v → v.isU64 = false →
      Port.portCheck o = Except.error (Errors.node ["must be a positive integer"]) := by
    intro o v hv hu
    rw [Port.portCheck, hv]
    cases v <;> simp_all [Json.isU64]
  have hcountCheck : ∀ o v, jsonGet o "count" = some v → v.isU64 = false →
      Port.countCheck o = Except.error (Errors.node ["must be a positive integer"]) := by
    intro o v hv hu
    rw [Port.countCheck, hv]
    cases v <;> simp_all [Json.isU64]
  refine ⟨?_, ?_⟩
  · intro o v hv hu
    have hp := hportCheck o v hv hu
    refine ⟨hp, ?_, ?_⟩
    · rw [Port.errMap,
        errLookup_errInsert_ne _ _ _ _ (by decide),
        errLookup_errInsert_ne _ _ _ _ (by decide),
        errLookup_errInsert_self, hp]
    · rcases hc : Port.countCheck o with ec | c <;>
      rcases hn : Port.nameCheck o with en | n <;>
      rcases hpr : Port.protocolCheck o with epr | pr <;>
      rcases hsa : Port.saCheck o with esa | sa <;>
        simp [Port.from_json, hc, hn, hp, hpr, hsa]
  · intro o v hv hu
    have hc := hcountCheck o v hv hu
    refine ⟨hc, ?_⟩
    rw [Port.errMap,
      errLookup_errInsert_ne _ _ _ _ (by decide),
      errLookup_errInsert_ne _ _ _ _ (by decide),
      errLookup_errInsert_ne _ _ _ _ (by decide),
      errLookup_errInsert_ne _ _ _ _ (by decide),
      errLookup_errInsert_self, hc]

theorem port_count_require_u64_witness :
    jsonGet [("name", Json.str "http"), ("port", Json.str "80"),
        ("protocol", Json.str "tcp")] "port" = some (Json.str "80") ∧
    (Json.str "80").isU64 = false ∧
    jsonGet [("count", Json.i64 (-1)), ("name", Json.str "http"),
        ("port", Json.u64 80), ("protocol", Json.str "tcp")] "count" =
      some (Json.i64 (-1)) ∧
    (Json.i64 (-1)).isU64 = false ∧
    Port.portCheck [("name", Json.str "http"), ("port", Json.str "80"),
        ("protocol", Json.str "tcp")] =
      Except.error (Errors.node ["must be a positive integer"]) ∧
    Port.countCheck [("count", Json.i64 (-1)), ("name", Json.str "http"),
        ("port", Json.u64 80), ("protocol", Json.str "tcp")] =
      Except.error (Errors.node ["must be a positive integer"]) :=
  ⟨rfl, rfl, rfl, rfl,
    (port_count_require_u64.1
      [("name", Json.str "http"), ("port", Json.str "80"), ("protocol", Json.str "tcp")]
      (Json.str "80") rfl rfl).1,
    (port_count_require_u64.2
      [("count", Json.i64 (-1)), ("name", Json.str "http"), ("port", Json.u64 80),
        ("protocol", Json.str "tcp")]
      (Json.i64 (-1)) rfl rfl).1⟩

/-- C10: `Isolator::from_json` requires the `value` key: on any JSON
object lacking it, validation fails and the error list contains the
"must be defined." message at the `value` path; when the key is present
(and the `name` field validates) its payload is accepted whatever JSON it
holds and the constructed `Isolator` stores an exact copy of that
subtree. -/
theorem isolator_value_required_and_verbatim :
    (∀ obj path, jsonGet obj "value" = none →
      ∃ es, Isolator.from_json (Json.object obj) path = Except.error es ∧
        Isolator.parse_error (path ++ "[\"value\"]") "must be defined." ∈ es) ∧
    (∀ obj path v n, jsonGet obj "value" = some v →
      Isolator.parse_name_field obj path = Except.ok n →
      Isolator.from_json (Json.object obj) path = Except.ok ⟨n, v⟩) := by
  refine ⟨?_, ?_⟩
  · intro obj path habs
    rcases hname : Isolator.parse_name_field obj path with es | n
    · refine ⟨es ++ [Isolator.parse_error (path ++ "[\"value\"]") "must be defined."], ?_, ?_⟩
      · simp only [Isolator.from_json, hname, habs]
      · simp
    · refine ⟨[] ++ [Isolator.parse_error (path ++ "[\"value\"]") "must be defined."], ?_, ?_⟩
      · simp only [Isolator.from_json, hname, habs]
      · simp
  · intro obj path v n hv hname
    simp only [Isolator.from_json, hv, hname]

theorem isolator_value_required_and_verbatim_witness :
    Isolator.from_json (Json.object [("name", Json.str "net"), ("value", Json.null)])
        "isolators[0]" = Except.ok ⟨⟨"net"⟩, Json.null⟩ ∧
    (∃ es, Isolator.from_json (Json.object [("name", Json.str "net")]) "isolators[0]" =
        Except.error es ∧
      Isolator.parse_error ("isolators[0]" ++ "[\"value\"]") "must be defined." ∈ es) :=
  ⟨isolator_value_required_and_verbatim.2 [("name", Json.str "net"), ("value", Json.null)]
      "isolators[0]" Json.null ⟨"net"⟩ rfl rfl,
    isolator_value_required_and_verbatim.1 [("name", Json.str "net")] "isolators[0]" rfl⟩
